import Mathlib

/-!
Shallow embedding of the core of the Resume-Fastapi repository
(src/parser_utils.py and the QA-normalization part of src/main.py),
together with proofs settling the claims C1..C10.

Python strings are modelled as Lean `String` (a wrapper around `List Char`);
the embedding works on `.data` throughout.  Python dynamic values that can be
`None` or a string are modelled by `PyVal`.  Character-class predicates
(`\w`, `str.lower`, whitespace, line breaks) are modelled at ASCII fidelity
(plus the unicode line separators Python's `str.splitlines` recognises);
every input exercised by the claims is ASCII.
-/

/-! ## Python string primitives -/

/-- ASCII lower-casing of one character (mirrors `str.lower` on ASCII input). -/
def pyLowerChar (c : Char) : Char :=
  if 65 ≤ c.toNat ∧ c.toNat ≤ 90 then Char.ofNat (c.toNat + 32) else c

/-- ASCII upper-casing of one character (mirrors `str.upper` on ASCII input). -/
def pyUpperChar (c : Char) : Char :=
  if 97 ≤ c.toNat ∧ c.toNat ≤ 122 then Char.ofNat (c.toNat - 32) else c

/-- `s.lower()` (ASCII fidelity). -/
def pyLower (s : String) : String := ⟨s.data.map pyLowerChar⟩

/-- `s.upper()` (ASCII fidelity). -/
def pyUpper (s : String) : String := ⟨s.data.map pyUpperChar⟩

/-- The whitespace characters stripped by `str.strip()` / split on by
`str.split()` (ASCII part of Python's whitespace class). -/
def pyIsSpace (c : Char) : Bool :=
  c == ' ' || c == '\t' || c == '\n' || c == '\r' || c == '\x0b' || c == '\x0c'

/-- Drop leading whitespace from a character list. -/
def dropLeadingSpace : List Char → List Char
  | [] => []
  | c :: cs => if pyIsSpace c then dropLeadingSpace cs else c :: cs

/-- `s.strip()`: drop leading and trailing whitespace. -/
def pyStrip (s : String) : String :=
  ⟨(dropLeadingSpace (dropLeadingSpace s.data).reverse).reverse⟩

/-- Characters on which `str.splitlines` breaks (besides the `\r\n` pair). -/
def isLineBreakChar (c : Char) : Bool :=
  c == '\n' || c == '\r' || c == '\x0b' || c == '\x0c' ||
  c == '\x1c' || c == '\x1d' || c == '\x1e' || c == '\x85' ||
  c == '\u2028' || c == '\u2029'

/-- Segments of a character list between line terminators (a `\r\n` pair is
one terminator).  Always returns a nonempty list of segments. -/
def splitSegs : List Char → List (List Char)
  | [] => [[]]
  | '\r' :: '\n' :: rest => [] :: splitSegs rest
  | c :: rest =>
    if isLineBreakChar c then [] :: splitSegs rest
    else
      match splitSegs rest with
      | [] => [[c]]
      | s :: ss => (c :: s) :: ss

/-- `s.splitlines()`: the segments, except that the segment after a final
terminator (equivalently: a trailing empty segment) is not a line, and the
empty string has no lines. -/
def pySplitlines (s : String) : List String :=
  match s.data with
  | [] => []
  | cs =>
    let segs := splitSegs cs
    (if segs.getLast? = some [] then segs.dropLast else segs).map (fun l => ⟨l⟩)

/-- Helper for `pySplit`: accumulate the current word (reversed) while
scanning. -/
def pySplitAux (cur : List Char) : List Char → List String
  | [] => if cur.isEmpty then [] else [⟨cur.reverse⟩]
  | c :: rest =>
    if pyIsSpace c then
      if cur.isEmpty then pySplitAux [] rest
      else ⟨cur.reverse⟩ :: pySplitAux [] rest
    else pySplitAux (c :: cur) rest

/-- `s.split()` with no argument: split on whitespace runs, no empty tokens. -/
def pySplit (s : String) : List String := pySplitAux [] s.data

/-- Does `cs` start with `needle`? -/
def listStartsWith : List Char → List Char → Bool
  | [], _ => true
  | _ :: _, [] => false
  | p :: ps, c :: cs => p == c && listStartsWith ps cs

/-- Python's `needle in hay` substring test (note `"" in s` is `True`). -/
def containsSub (needle : List Char) : List Char → Bool
  | [] => listStartsWith needle []
  | c :: cs => listStartsWith needle (c :: cs) || containsSub needle cs

/-! ## The `\b`-delimited literal search used by `re.search(r"\b...\b", s)` -/

/-- Python regex `\w` on ASCII: letters, digits, underscore. -/
def isWordChar (c : Char) : Bool := c.isAlphanum || c == '_'

/-- Is the character at index `n` of `cs` a word character (out of range
counts as non-word, as at the ends of the subject string)? -/
def charAtIsWord (cs : List Char) (n : Nat) : Bool :=
  match cs.get? n with
  | some c => isWordChar c
  | none => false

/-- Scan for a match of `\b ps \b` (`ps` a nonempty literal): at each
position, `\b` holds before the match iff the word-ness of the previous
character (`prevWord`; false at the start of the string) differs from that of
the first pattern character, and after the match iff the word-ness of the
last pattern character (`plast`) differs from that of the following subject
character. -/
def wordOccursAux (ps : List Char) (plast : Char) (prevWord : Bool) : List Char → Bool
  | [] => false
  | c :: cs =>
    ((prevWord != isWordChar c) && listStartsWith ps (c :: cs) &&
      (isWordChar plast != charAtIsWord (c :: cs) ps.length)) ||
    wordOccursAux ps plast (isWordChar c) cs

/-- `re.search(r"\b" + re.escape(pat) + r"\b", text) is not None`, for the
literal (already-escaped) nonempty patterns used in parser_utils.py.  (The
empty-pattern case is unreachable: every pattern in this file is a nonempty
literal.) -/
def reWordSearch (pat text : String) : Bool :=
  match pat.data with
  | [] => false
  | p :: ps => wordOccursAux (p :: ps) ((p :: ps).getLastD p) false text.data

/-! ## Sorting (Python `sorted` on a list of distinct strings) -/

/-- Lexicographic (code-point) order on character lists, Python's string
comparison. -/
def charListLe : List Char → List Char → Bool
  | [], _ => true
  | _ :: _, [] => false
  | a :: as, b :: bs =>
    if a.toNat < b.toNat then true
    else if b.toNat < a.toNat then false
    else charListLe as bs

/-- `a <= b` for strings, by code points. -/
def strLe (a b : String) : Bool := charListLe a.data b.data

/-- Insert a string into a `strLe`-sorted list. -/
def insertStr (s : String) : List String → List String
  | [] => [s]
  | t :: ts => if strLe s t then s :: t :: ts else t :: insertStr s ts

/-- `sorted(l)` for strings: insertion sort by `strLe` (on the distinct
elements it is applied to, this agrees with any correct sort). -/
def pySort (l : List String) : List String := l.foldr insertStr []

/-! ## Python-ish dynamic values and NER entities -/

/-- A Python value that is either `None` or a string. -/
inductive PyVal where
  | vNone : PyVal
  | vStr : String → PyVal
deriving DecidableEq, Repr

/-- Python truthiness of such a value: `None` and `""` are falsy. -/
def pyValTruthy : PyVal → Bool
  | .vNone => false
  | .vStr s => !s.data.isEmpty

/-- `str(x)` for such a value (`str(None) == "None"`), as used by f-string
interpolation in `f"Worked at {o}"`. -/
def pyStrOfVal : PyVal → String
  | .vNone => "None"
  | .vStr s => s

/-- `d.get(key)` on a dict whose slot is modelled as `Option PyVal`
(absent key yields `None`). -/
def dictGet (o : Option PyVal) : PyVal := o.getD PyVal.vNone

/-- One normalized NER entity as produced by `call_local_ner` and consumed by
`build_structured_fields`: a Python dict whose `"word"` and `"entity_group"`
keys may each be absent (`Option.none`) or present with a `None`-or-string
value. -/
structure Entity where
  word : Option PyVal := Option.none
  entity_group : Option PyVal := Option.none
deriving DecidableEq, Repr

/-- The exceptions the embedded code can raise. -/
inductive PyExc where
  | keyError : String → PyExc
deriving DecidableEq, Repr

/-- `ent.get("entity_group") and ent.get("entity_group").upper().startswith(tag)`
(parser_utils.py lines 143, 165, 179): the group value must be truthy and its
upper-casing must start with `tag`. -/
def isGroup (tag : String) (e : Entity) : Bool :=
  match e.entity_group with
  | some (PyVal.vStr s) => !s.data.isEmpty && listStartsWith tag.data (pyUpper s).data
  | _ => false

/-- `[e["word"] for e in ents if <e is ORG-tagged>]` (parser_utils.py lines
165 and 179).  The subscript `e["word"]` raises `KeyError` when the key is
absent — this is a genuine partiality of the source. -/
def orgWords : List Entity → Except PyExc (List PyVal)
  | [] => .ok []
  | e :: rest =>
    if isGroup "ORG" e then
      match e.word with
      | Option.none => .error (.keyError "word")
      | some w =>
        match orgWords rest with
        | .error ex => .error ex
        | .ok ws => .ok (w :: ws)
    else orgWords rest

/-- Name detection (parser_utils.py lines 141-145): the `"word"` of the first
entity whose group is truthy and upper-starts with `"PER"`; `None` when no
entity qualifies. -/
def findName : List Entity → Option PyVal
  | [] => Option.none
  | e :: rest => if isGroup "PER" e then some (dictGet e.word) else findName rest

/-- `name or ""` (parser_utils.py line 208): a falsy name becomes the empty
string. -/
def pyOrEmptyStr : Option PyVal → PyVal
  | some (PyVal.vStr s) => if s.data.isEmpty then PyVal.vStr "" else PyVal.vStr s
  | _ => PyVal.vStr ""

/-! ## The heuristic keyword lists (parser_utils.py lines 114-122, 176, 194) -/

def COMMON_SKILLS : List String :=
  ["python", "java", "c++", "c", "javascript", "sql", "nosql", "mongodb", "postgresql", "mysql",
   "pandas", "numpy", "scikit-learn", "tensorflow", "keras", "pytorch", "fastapi", "flask",
   "docker", "kubernetes", "aws", "gcp", "azure", "html", "css", "react", "node", "spark", "hadoop"]

def DEGREE_KEYWORDS : List String :=
  ["bachelor", "bsc", "b.tech", "btech", "bs", "master", "msc", "m.tech", "mtech", "ms", "phd", "diploma"]

def ROLE_KEYWORDS : List String :=
  ["intern", "engineer", "manager", "associate", "analyst", "developer"]

def HOBBY_KEYWORDS : List String :=
  ["reading", "travelling", "travel", "music", "photography", "gaming", "sports", "cricket", "football"]

/-! ## The blocks of `build_structured_fields` (parser_utils.py lines 124-217) -/

/-- Skills block (lines 147-151 and 211): the set of skills found by
`re.search(r"\b" + re.escape(skill) + r"\b", lower_text)`, then
`sorted(list(found_skills))`.  `COMMON_SKILLS` has no duplicates, so the set
of found skills is the filtered list. -/
def skillsBlock (lower_text : String) : List String :=
  pySort (COMMON_SKILLS.filter (fun sk => reWordSearch sk lower_text))

/-- Does a line qualify for education (line 157): a degree keyword occurs as
a substring of `line.lower()`, or `re.search(r"\b(university|college|institute|school)\b",
line.lower())` matches (the alternation of four all-word-character literals
matches iff one of the four `\b`-delimited words matches)? -/
def eduLineCond (line : String) : Bool :=
  DEGREE_KEYWORDS.any (fun k => containsSub k.data (pyLower line).data) ||
  (["university", "college", "institute", "school"].any (fun w => reWordSearch w (pyLower line)))

/-- Education line scan (lines 155-159): qualifying lines whose stripped
length exceeds 5, collected stripped, in source order. -/
def eduLinesBlock (text : String) : List String :=
  (pySplitlines text).filterMap (fun line =>
    if eduLineCond line then
      (if 5 < (pyStrip line).data.length then some (pyStrip line) else Option.none)
    else Option.none)

/-- `re.search(r"(19|20)\d{2}", l)` at one position: the next four characters
are `19` or `20` followed by two digits. -/
def yearAt : List Char → Bool
  | c1 :: c2 :: c3 :: c4 :: _ =>
    ((c1 == '1' && c2 == '9') || (c1 == '2' && c2 == '0')) && c3.isDigit && c4.isDigit
  | _ => false

/-- `re.search(r"(19|20)\d{2}", l) is not None`: some position matches. -/
def hasYear : List Char → Bool
  | [] => false
  | c :: cs => yearAt (c :: cs) || hasYear cs

/-- Does a (stripped) line qualify for experience (line 176): it contains a
year pattern and some role keyword occurs in `l.lower()`? -/
def expLineCond (l : String) : Bool :=
  hasYear l.data && ROLE_KEYWORDS.any (fun k => containsSub k.data (pyLower l).data)

/-- Experience line scan (lines 170-177): strip each line, skip empty lines,
keep those satisfying `expLineCond`, in source order. -/
def expLinesBlock (text : String) : List String :=
  (pySplitlines text).filterMap (fun line =>
    if (pyStrip line).data.length = 0 then Option.none
    else if expLineCond (pyStrip line) then some (pyStrip line) else Option.none)

/-- Certification condition (line 188): `"certif" in low or "course" in low
or "certificate" in low` on `low = line.lower()`. -/
def certCond (line : String) : Bool :=
  containsSub "certif".data (pyLower line).data ||
  containsSub "course".data (pyLower line).data ||
  containsSub "certificate".data (pyLower line).data

/-- Project condition (line 190): `"project" in low or "github.com" in low`. -/
def projCond (line : String) : Bool :=
  containsSub "project".data (pyLower line).data ||
  containsSub "github.com".data (pyLower line).data

/-- Certifications-and-projects scan (lines 184-191): one pass over the
lines, appending the stripped line to either list when its condition holds. -/
def certsProjects : List String → List String × List String
  | [] => ([], [])
  | line :: rest =>
    let cp := certsProjects rest
    ((if certCond line then pyStrip line :: cp.1 else cp.1),
     (if projCond line then pyStrip line :: cp.2 else cp.2))

/-- Hobbies block (lines 194-198): fixed keyword order, `\b`-delimited search
in the lower-cased full text. -/
def hobbiesBlock (lower_text : String) : List String :=
  HOBBY_KEYWORDS.filter (fun h => reWordSearch h lower_text)

/-- Introduction block (lines 201-205): the first stripped line of length
exceeding 30, else the empty string. -/
def introBlock : List String → String
  | [] => ""
  | line :: rest =>
    if 30 < (pyStrip line).data.length then pyStrip line else introBlock rest

/-- The candidate record built at parser_utils.py lines 207-216.  Every key
of the Python dict literal is a field here; `education` is `Option.none` for
the empty dict `{}` and `some entries` for `{"entries": entries}`, likewise
`experience` for `{"summary_lines": lines}`. -/
structure Record where
  name : PyVal
  education : Option (List PyVal)
  experience : Option (List String)
  skills : List String
  hobbies : List String
  certifications : List String
  projects : List String
  introduction : String
deriving DecidableEq, Repr

/-- `build_structured_fields(text, ner_entities)` (parser_utils.py lines
124-217).  The two `e["word"]` comprehensions (lines 165, 179) can raise
`KeyError`, hence the `Except`.  (`ner_entities or []` is the identity on the
lists modelled here.) -/
def build_structured_fields (text : String) (ner_entities : List Entity) : Except PyExc Record :=
  let lower_text := pyLower text
  let lines := pySplitlines text
  let name := findName ner_entities
  let skills := skillsBlock lower_text
  let edu := eduLinesBlock text
  let educationE : Except PyExc (Option (List PyVal)) :=
    if edu.isEmpty then
      match orgWords ner_entities with
      | .error ex => .error ex
      | .ok orgs => .ok (if orgs.isEmpty then Option.none else some (orgs.take 3))
    else .ok (some (edu.map PyVal.vStr))
  match educationE with
  | .error ex => .error ex
  | .ok education =>
    match orgWords ner_entities with
    | .error ex => .error ex
    | .ok orgs =>
      let experiences := expLinesBlock text ++ (orgs.take 5).map (fun o => "Worked at " ++ pyStrOfVal o)
      let cp := certsProjects lines
      .ok { name := pyOrEmptyStr name
            education := education
            experience := if experiences.isEmpty then Option.none else some experiences
            skills := skills
            hobbies := hobbiesBlock lower_text
            certifications := cp.1
            projects := cp.2
            introduction := introBlock lines }

/-! ## The QA path (`call_local_qa`, parser_utils.py lines 87-111) and the
normalization in `ask_candidate` (main.py lines 189-207) -/

/-- A value of the shapes `ask_candidate` inspects: a dict whose `"answer"`
and `"error"` slots may each be absent or hold a `None`-or-string value, a
list of such values, or a plain string.  `call_local_qa` only ever builds
single-key dicts; the loaded model may return any of these shapes. -/
inductive PyResp where
  | dict : Option PyVal → Option PyVal → PyResp
  | listResp : List PyResp → PyResp
  | str : String → PyResp

/-- `repr(x)` of such a value, approximated: string escaping is elided and
the dict renders its `answer` slot before its `error` slot (the only dicts
the code builds have a single key).  No claim evaluates this rendering. -/
def pyReprResp : PyResp → String
  | .str s => "\x27" ++ s ++ "\x27"
  | .dict a e =>
    let fa := match a with
      | some v => ["\x27answer\x27: " ++ (match v with
          | PyVal.vNone => "None"
          | PyVal.vStr s => "\x27" ++ s ++ "\x27")]
      | Option.none => []
    let fe := match e with
      | some v => ["\x27error\x27: " ++ (match v with
          | PyVal.vNone => "None"
          | PyVal.vStr s => "\x27" ++ s ++ "\x27")]
      | Option.none => []
    "\x7b" ++ String.intercalate ", " (fa ++ fe) ++ "\x7d"
  | .listResp items => "[" ++ String.intercalate ", " (reprList items) ++ "]"
where
  reprList : List PyResp → List String
    | [] => []
    | x :: xs => pyReprResp x :: reprList xs

/-- `str(x)` of such a value: the string itself for a string, `repr`
otherwise (Python's `str` on dicts and lists is their `repr`). -/
def pyStrResp : PyResp → String
  | .str s => s
  | r => pyReprResp r

/-- Context truncation on the model-backed path (parser_utils.py line 95):
`context if len(context) <= max_context else context[-max_context:]` with
`max_context = 20000`. -/
def qaTruncate (context : String) : String :=
  if context.data.length ≤ 20000 then context
  else ⟨context.data.drop (context.data.length - 20000)⟩

/-- `call_local_qa(question, context)` (parser_utils.py lines 87-111).
`modelLoaded` models `_models_loaded and qa_pipeline`; `modelCall` models
invoking `qa_pipeline(question=..., context=..., top_k=1)`, which either
returns a response value or raises with a message `e` (then the code returns
`{"error": str(e)}`).  When no model is loaded, the heuristic path scans the
context lines for the first three whitespace tokens of the lower-cased
question. -/
def call_local_qa (modelLoaded : Bool)
    (modelCall : String → String → Except String PyResp)
    (question context : String) : PyResp :=
  if modelLoaded then
    match modelCall question (qaTruncate context) with
    | .ok res => res
    | .error e => .dict Option.none (some (PyVal.vStr e))
  else
    let q := pyLower question
    let candidates := (pySplitlines context).filterMap (fun line =>
      if (pyStrip line).data.length < 3 then Option.none
      else if ((pySplit q).take 3).any (fun w => containsSub w.data (pyLower line).data)
      then some (pyStrip line) else Option.none)
    match candidates with
    | c :: _ => .dict (some (PyVal.vStr c)) Option.none
    | [] => .dict (some (PyVal.vStr "No clear answer found in stored data.")) Option.none

/-- Outcome of the `/ask/{candidate_id}` handler's QA section: a normal
answer, or an `HTTPException(status, detail)`. -/
inductive AskOutcome where
  | ok : String → AskOutcome
  | httpError : Nat → String → AskOutcome
deriving DecidableEq, Repr

/-- The response normalization of `ask_candidate` (main.py lines 191-205),
applied to what `call_local_qa` returned:
dict with truthy `"answer"` → that answer; nonempty list → first element's
truthy `"answer"` if it is a dict having one, else `str` of the first
element; dict with truthy `"error"` → `raise Exception(error)`, caught and
re-raised as `HTTPException(500, f"QA failed: {e}")`; anything else →
`str(hf_resp)`. -/
def normalizeResp (hf : PyResp) : AskOutcome :=
  match hf with
  | .dict a e =>
    if pyValTruthy (dictGet a) then .ok (pyStrOfVal (dictGet a))
    else if pyValTruthy (dictGet e) then .httpError 500 ("QA failed: " ++ pyStrOfVal (dictGet e))
    else .ok (pyStrResp (.dict a e))
  | .listResp [] => .ok (pyStrResp (.listResp []))
  | .listResp (x :: _) =>
    match x with
    | .dict a e =>
      if pyValTruthy (dictGet a) then .ok (pyStrOfVal (dictGet a))
      else .ok (pyStrResp (.dict a e))
    | other => .ok (pyStrResp other)
  | .str s => .ok s

/-- The QA section of `ask_candidate` (main.py lines 189-205): call
`call_local_qa` on the assembled context and normalize the response.  (The
record lookup and context assembly, lines 164-187, are upstream of the
claims and not modelled.) -/
def askNormalize (modelLoaded : Bool)
    (modelCall : String → String → Except String PyResp)
    (question context : String) : AskOutcome :=
  normalizeResp (call_local_qa modelLoaded modelCall question context)

/-! ## Claim-side characterizations (phrased after the specification's words,
to be proved equal to what the code computes) -/

/-- The spec's description of a matching line on the heuristic QA path: its
trimmed length is at least 3 and it case-insensitively contains one of the
first three whitespace tokens of the lower-cased question as a substring. -/
def heurLineMatches (question line : String) : Bool :=
  decide (3 ≤ (pyStrip line).data.length) &&
  ((pySplit (pyLower question)).take 3).any (fun w => containsSub w.data (pyLower line).data)

/-- The spec's description of the heuristic answer: the first matching
context line, trimmed; the fixed literal when no line matches. -/
def heurAnswer (question context : String) : String :=
  (((pySplitlines context).find? (heurLineMatches question)).map pyStrip).getD
    "No clear answer found in stored data."

/-! ## Helper lemmas: the string order and `pySort` -/

/-- The order `pySort` sorts by, as a relation. -/
def SLe (a b : String) : Prop := strLe a b = true

instance : DecidableRel SLe := fun a b => inferInstanceAs (Decidable (strLe a b = true))

theorem charListLe_total : ∀ a b : List Char, charListLe a b = true ∨ charListLe b a = true
  | [], _ => Or.inl rfl
  | _ :: _, [] => Or.inr rfl
  | x :: xs, y :: ys => by
    simp only [charListLe]
    rcases Nat.lt_trichotomy x.toNat y.toNat with h | h | h
    · left; rw [if_pos h]
    · have h1 : ¬ x.toNat < y.toNat := by omega
      have h2 : ¬ y.toNat < x.toNat := by omega
      rw [if_neg h1, if_neg h2, if_neg h2, if_neg h1]
      exact charListLe_total xs ys
    · right; rw [if_pos h]

theorem charListLe_trans :
    ∀ a b c : List Char, charListLe a b = true → charListLe b c = true → charListLe a c = true
  | [], _, _, _, _ => rfl
  | _ :: _, [], _, h1, _ => by simp [charListLe] at h1
  | _ :: _, _ :: _, [], _, h2 => by simp [charListLe] at h2
  | x :: xs, y :: ys, z :: zs, h1, h2 => by
    simp only [charListLe] at h1 h2 ⊢
    rcases Nat.lt_trichotomy x.toNat y.toNat with hxy | hxy | hxy
    · rcases Nat.lt_trichotomy y.toNat z.toNat with hyz | hyz | hyz
      · rw [if_pos (show x.toNat < z.toNat by omega)]
      · rw [if_pos (show x.toNat < z.toNat by omega)]
      · rw [if_neg (show ¬ y.toNat < z.toNat by omega), if_pos hyz] at h2
        exact absurd h2 (by simp)
    · rcases Nat.lt_trichotomy y.toNat z.toNat with hyz | hyz | hyz
      · rw [if_pos (show x.toNat < z.toNat by omega)]
      · rw [if_neg (show ¬ x.toNat < y.toNat by omega),
            if_neg (show ¬ y.toNat < x.toNat by omega)] at h1
        rw [if_neg (show ¬ y.toNat < z.toNat by omega),
            if_neg (show ¬ z.toNat < y.toNat by omega)] at h2
        rw [if_neg (show ¬ x.toNat < z.toNat by omega),
            if_neg (show ¬ z.toNat < x.toNat by omega)]
        exact charListLe_trans xs ys zs h1 h2
      · rw [if_neg (show ¬ y.toNat < z.toNat by omega), if_pos hyz] at h2
        exact absurd h2 (by simp)
    · rw [if_neg (show ¬ x.toNat < y.toNat by omega), if_pos hxy] at h1
      exact absurd h1 (by simp)

instance : IsTotal String SLe := ⟨fun a b => charListLe_total a.data b.data⟩

instance : IsTrans String SLe := ⟨fun a b c => charListLe_trans a.data b.data c.data⟩

theorem insertStr_eq_orderedInsert (s : String) :
    ∀ l : List String, insertStr s l = List.orderedInsert SLe s l
  | [] => rfl
  | t :: ts => by
    simp only [insertStr, List.orderedInsert, SLe]
    by_cases h : strLe s t = true
    · rw [if_pos h, if_pos h]
    · rw [if_neg h, if_neg h, insertStr_eq_orderedInsert s ts]

theorem pySort_eq_insertionSort : ∀ l : List String, pySort l = List.insertionSort SLe l
  | [] => rfl
  | x :: xs => by
    show insertStr x (pySort xs) = List.orderedInsert SLe x (List.insertionSort SLe xs)
    rw [insertStr_eq_orderedInsert, pySort_eq_insertionSort xs]

theorem pySort_sorted (l : List String) : (pySort l).Pairwise SLe := by
  rw [pySort_eq_insertionSort]
  exact List.sorted_insertionSort SLe l

theorem pySort_perm (l : List String) : (pySort l).Perm l := by
  rw [pySort_eq_insertionSort]
  exact List.perm_insertionSort SLe l

theorem mem_pySort {a : String} {l : List String} : a ∈ pySort l ↔ a ∈ l :=
  (pySort_perm l).mem_iff

theorem nodup_pySort {l : List String} (h : l.Nodup) : (pySort l).Nodup :=
  ((pySort_perm l).nodup_iff).mpr h

/-! ## Helper lemmas: the scanning blocks as filter-and-map -/

theorem filterMap_guard_eq {α β : Type} (p : α → Bool) (g : α → β) :
    ∀ l : List α,
      l.filterMap (fun a => if p a = true then some (g a) else Option.none) = (l.filter p).map g
  | [] => rfl
  | a :: l => by
    rw [List.filterMap_cons]
    by_cases h : p a = true
    · rw [if_pos h, List.filter_cons_of_pos h, List.map_cons, filterMap_guard_eq p g l]
    · rw [if_neg h, List.filter_cons_of_neg h, filterMap_guard_eq p g l]

theorem eduLinesBlock_eq_filter (text : String) :
    eduLinesBlock text =
      ((pySplitlines text).filter
        (fun line => eduLineCond line && decide (5 < (pyStrip line).data.length))).map pyStrip := by
  have hbody : (fun line => if eduLineCond line = true then
        (if 5 < (pyStrip line).data.length then some (pyStrip line) else Option.none)
      else Option.none) =
      (fun line : String => if (eduLineCond line && decide (5 < (pyStrip line).data.length)) = true
        then some (pyStrip line) else Option.none) := by
    funext line
    by_cases hc : eduLineCond line = true <;> by_cases hl : 5 < (pyStrip line).data.length <;>
      simp [hc, hl]
  show (pySplitlines text).filterMap _ = _
  rw [hbody]
  exact filterMap_guard_eq _ _ _

theorem expLineCond_of_nil (l : String) (h : l.data.length = 0) : expLineCond l = false := by
  have hn : l.data = [] := List.length_eq_zero.mp h
  simp [expLineCond, hn, hasYear]

theorem expLinesBlock_eq_filter (text : String) :
    expLinesBlock text = ((pySplitlines text).map pyStrip).filter expLineCond := by
  have hbody : (fun line => if (pyStrip line).data.length = 0 then Option.none
        else if expLineCond (pyStrip line) = true then some (pyStrip line) else Option.none) =
      (fun line : String => if expLineCond (pyStrip line) = true
        then some (pyStrip line) else Option.none) := by
    funext line
    by_cases h0 : (pyStrip line).data.length = 0
    · rw [if_pos h0, expLineCond_of_nil _ h0]
      simp
    · rw [if_neg h0]
  show (pySplitlines text).filterMap _ = _
  rw [hbody]
  rw [show (fun line : String => if expLineCond (pyStrip line) = true
        then some (pyStrip line) else Option.none) =
      (fun line : String => if (expLineCond ∘ pyStrip) line = true
        then some (pyStrip line) else Option.none) from rfl]
  rw [filterMap_guard_eq (expLineCond ∘ pyStrip) pyStrip (pySplitlines text)]
  rw [List.filter_map]

theorem certsProjects_eq_filter : ∀ lines : List String,
    certsProjects lines = ((lines.filter certCond).map pyStrip, (lines.filter projCond).map pyStrip)
  | [] => rfl
  | line :: rest => by
    simp only [certsProjects, certsProjects_eq_filter rest]
    by_cases hc : certCond line = true
    · rw [List.filter_cons_of_pos hc, if_pos hc, List.map_cons]
      by_cases hp : projCond line = true
      · rw [List.filter_cons_of_pos hp, if_pos hp, List.map_cons]
      · rw [List.filter_cons_of_neg hp, if_neg hp]
    · rw [List.filter_cons_of_neg hc, if_neg hc]
      by_cases hp : projCond line = true
      · rw [List.filter_cons_of_pos hp, if_pos hp, List.map_cons]
      · rw [List.filter_cons_of_neg hp, if_neg hp]

/-! ## Helper lemmas: `orgWords` and extracting the fields of a successful
`build_structured_fields` -/

theorem orgWords_ok_of : ∀ ents : List Entity,
    (∀ e ∈ ents, isGroup "ORG" e = true → e.word.isSome = true) →
    ∃ ws, orgWords ents = .ok ws
  | [], _ => ⟨[], rfl⟩
  | e :: rest, h => by
    obtain ⟨ws, hws⟩ := orgWords_ok_of rest (fun x hx => h x (List.mem_cons_of_mem e hx))
    by_cases hg : isGroup "ORG" e = true
    · have hw : e.word.isSome = true := h e (List.mem_cons_self e rest) hg
      obtain ⟨w, hw'⟩ := Option.isSome_iff_exists.mp hw
      exact ⟨w :: ws, by simp [orgWords, hg, hw', hws]⟩
    · exact ⟨ws, by simp only [Bool.not_eq_true] at hg; simp [orgWords, hg, hws]⟩

theorem orgWords_spec : ∀ (ents : List Entity) (ws : List PyVal),
    orgWords ents = .ok ws →
    ws = (ents.filter (fun e => isGroup "ORG" e)).filterMap Entity.word
  | [], ws, h => by
    simp only [orgWords] at h
    cases h
    rfl
  | e :: rest, ws, h => by
    by_cases hg : isGroup "ORG" e = true
    · rw [List.filter_cons_of_pos hg, List.filterMap_cons]
      cases hw : e.word with
      | none => simp [orgWords, hg, hw] at h
      | some w =>
        simp only [orgWords, hg, if_pos, if_true, hw] at h
        cases hrest : orgWords rest with
        | error ex => rw [hrest] at h; exact absurd h (by simp)
        | ok ws' =>
          rw [hrest] at h
          have h2 : Except.ok (ε := PyExc) (w :: ws') = Except.ok ws := h
          have hws : w :: ws' = ws := by
            injection h2
          rw [← hws]
          exact congrArg (w :: ·) (orgWords_spec rest ws' hrest)
    · have hg' : isGroup "ORG" e = false := by simpa using hg
      rw [List.filter_cons_of_neg hg]
      simp only [orgWords, hg', Bool.false_eq_true, if_false] at h
      exact orgWords_spec rest ws h

theorem build_ok_orgWords (text : String) (ents : List Entity) (r : Record)
    (h : build_structured_fields text ents = .ok r) : ∃ ws, orgWords ents = .ok ws := by
  cases hw : orgWords ents with
  | ok ws => exact ⟨ws, rfl⟩
  | error ex =>
    exfalso
    by_cases he : (eduLinesBlock text).isEmpty = true <;>
      simp [build_structured_fields, hw, he] at h

theorem build_ok_fields (text : String) (ents : List Entity) (ws : List PyVal) (r : Record)
    (hw : orgWords ents = .ok ws)
    (h : build_structured_fields text ents = .ok r) :
    r = { name := pyOrEmptyStr (findName ents)
          education := (if (eduLinesBlock text).isEmpty then
                          (if ws.isEmpty then Option.none else some (ws.take 3))
                        else some ((eduLinesBlock text).map PyVal.vStr))
          experience := (if (expLinesBlock text ++
                              (ws.take 5).map (fun o => "Worked at " ++ pyStrOfVal o)).isEmpty
                         then Option.none
                         else some (expLinesBlock text ++
                              (ws.take 5).map (fun o => "Worked at " ++ pyStrOfVal o)))
          skills := skillsBlock (pyLower text)
          hobbies := hobbiesBlock (pyLower text)
          certifications := (certsProjects (pySplitlines text)).1
          projects := (certsProjects (pySplitlines text)).2
          introduction := introBlock (pySplitlines text) } := by
  by_cases he : (eduLinesBlock text).isEmpty = true <;>
    · simp only [build_structured_fields, hw, he, Bool.false_eq_true, if_true, if_false,
        Except.ok.injEq, reduceIte] at h
      simp only [he, Bool.false_eq_true, if_true, if_false, reduceIte]
      exact h.symm

/-! ## Helper lemmas: the heuristic QA path -/

theorem heur_filterMap (question : String) (lines : List String) :
    lines.filterMap (fun line =>
      if (pyStrip line).data.length < 3 then Option.none
      else if ((pySplit (pyLower question)).take 3).any
                (fun w => containsSub w.data (pyLower line).data)
           then some (pyStrip line) else Option.none)
    = (lines.filter (heurLineMatches question)).map pyStrip := by
  have hbody : (fun line => if (pyStrip line).data.length < 3 then Option.none
      else if ((pySplit (pyLower question)).take 3).any
                (fun w => containsSub w.data (pyLower line).data)
           then some (pyStrip line) else Option.none)
    = (fun line : String => if heurLineMatches question line = true
        then some (pyStrip line) else Option.none) := by
    funext line
    by_cases h3 : (pyStrip line).data.length < 3
    · have hm : heurLineMatches question line = false := by
        have hn : ¬ 3 ≤ (pyStrip line).data.length := by omega
        unfold heurLineMatches
        rw [decide_eq_false hn, Bool.false_and]
      rw [if_pos h3, hm]
      simp
    · have h3' : 3 ≤ (pyStrip line).data.length := by omega
      by_cases ha : ((pySplit (pyLower question)).take 3).any
          (fun w => containsSub w.data (pyLower line).data) = true
      · have hm : heurLineMatches question line = true := by
          unfold heurLineMatches
          rw [decide_eq_true h3', Bool.true_and, ha]
        rw [if_neg h3, if_pos ha, hm]
        rfl
      · have ha' : ((pySplit (pyLower question)).take 3).any
            (fun w => containsSub w.data (pyLower line).data) = false := by
          simpa using ha
        have hm : heurLineMatches question line = false := by
          unfold heurLineMatches
          rw [ha', Bool.and_false]
        rw [if_neg h3, if_neg ha, hm]
        simp
  rw [hbody]
  exact filterMap_guard_eq _ _ _

/-! ## Helper lemmas: blank questions on the heuristic path -/

theorem pyLowerChar_of_space (c : Char) (h : pyIsSpace c = true) : pyLowerChar c = c := by
  simp only [pyIsSpace, Bool.or_eq_true, beq_iff_eq] at h
  rcases h with ((((h | h) | h) | h) | h) | h <;> subst h <;> decide

theorem pySplitAux_blank : ∀ cs : List Char, cs.all pyIsSpace = true → pySplitAux [] cs = []
  | [], _ => rfl
  | c :: rest, h => by
    rw [List.all_cons, Bool.and_eq_true] at h
    simp only [pySplitAux, h.1, if_pos, List.isEmpty_nil, if_true, reduceIte]
    exact pySplitAux_blank rest h.2

theorem pySplit_lower_blank (q : String) (h : q.data.all pyIsSpace = true) :
    pySplit (pyLower q) = [] := by
  have hall : (q.data.map pyLowerChar).all pyIsSpace = true := by
    rw [List.all_map]
    rw [List.all_eq_true] at h ⊢
    intro c hc
    have hs := h c hc
    show pyIsSpace (pyLowerChar c) = true
    rw [pyLowerChar_of_space c hs]
    exact hs
  exact pySplitAux_blank _ hall

theorem filterMap_no_keywords (lines : List String) :
    lines.filterMap (fun line =>
      if (pyStrip line).data.length < 3 then Option.none
      else if (([] : List String).take 3).any
                (fun w => containsSub w.data (pyLower line).data)
           then some (pyStrip line) else Option.none) = [] := by
  induction lines with
  | nil => rfl
  | cons a l ih =>
    rw [List.filterMap_cons]
    by_cases h3 : (pyStrip a).data.length < 3
    · rw [if_pos h3]
      exact ih
    · rw [if_neg h3]
      simp only [List.take_nil, List.any_nil, Bool.false_eq_true, if_false]
      exact ih

/-! ## Claims C8, C9, C10, C1: the question-answering path -/

/-- Claim C8: with no QA model available, the answer is the first context
line (in order) of trimmed length at least 3 that case-insensitively contains
one of the first three whitespace tokens of the lower-cased question as a
substring, returned trimmed; when no line matches, the answer is exactly the
fixed literal "No clear answer found in stored data.". -/
theorem c8_heuristic_answer (mc : String → String → Except String PyResp)
    (question context : String) :
    call_local_qa false mc question context =
      PyResp.dict (some (PyVal.vStr (heurAnswer question context))) Option.none := by
  simp only [call_local_qa, Bool.false_eq_true, reduceIte]
  rw [heur_filterMap]
  unfold heurAnswer
  generalize pySplitlines context = lines
  induction lines with
  | nil => rfl
  | cons a l ih =>
    by_cases h : heurLineMatches question a = true
    · rw [List.filter_cons_of_pos h, List.find?_cons_of_pos l h, List.map_cons]
      rfl
    · rw [List.filter_cons_of_neg h, List.find?_cons_of_neg l h]
      exact ih

/-- Claim C9: on the model-backed path the context handed to the model is
`qaTruncate context`: unchanged when its length is at most 20000 characters,
and exactly the trailing 20000-character slice (characters dropped from the
front) when longer. -/
theorem c9_context_truncation (context : String) :
    (context.data.length ≤ 20000 → qaTruncate context = context) ∧
    (20000 < context.data.length →
      (qaTruncate context).data = context.data.drop (context.data.length - 20000) ∧
      (qaTruncate context).data.length = 20000) ∧
    (∀ (mc : String → String → Except String PyResp) (question : String),
      call_local_qa true mc question context =
        match mc question (qaTruncate context) with
        | .ok res => res
        | .error e => PyResp.dict Option.none (some (PyVal.vStr e))) := by
  refine ⟨?_, ?_, ?_⟩
  · intro h
    unfold qaTruncate
    rw [if_pos h]
  · intro h
    have hn : ¬ context.data.length ≤ 20000 := by omega
    constructor
    · unfold qaTruncate
      rw [if_neg hn]
    · unfold qaTruncate
      rw [if_neg hn]
      simp only [List.length_drop]
      omega
  · intro mc question
    rfl

/-- Witness for C9 at a concrete 25000-character context: it is longer than
20000 characters and the truncated context is its trailing slice. -/
theorem c9_context_truncation_witness :
    20000 < (String.mk (List.replicate 25000 'a')).data.length ∧
    (qaTruncate (String.mk (List.replicate 25000 'a'))).data =
      (String.mk (List.replicate 25000 'a')).data.drop
        ((String.mk (List.replicate 25000 'a')).data.length - 20000) := by
  have h : 20000 < (String.mk (List.replicate 25000 'a')).data.length := by
    show 20000 < (List.replicate 25000 'a').length
    rw [List.length_replicate]
    omega
  exact ⟨h, ((c9_context_truncation (String.mk (List.replicate 25000 'a'))).2.1 h).1⟩

/-- Claim C10: on the heuristic path, a question that is empty or all
whitespace produces an empty keyword list, so no line ever matches and the
answer is exactly the fixed literal. -/
theorem c10_blank_question (mc : String → String → Except String PyResp)
    (question context : String) (h : question.data.all pyIsSpace = true) :
    call_local_qa false mc question context =
      PyResp.dict (some (PyVal.vStr "No clear answer found in stored data.")) Option.none := by
  simp only [call_local_qa, Bool.false_eq_true, reduceIte]
  rw [pySplit_lower_blank question h, filterMap_no_keywords]

/-- Witness for C10: a whitespace-only question over a two-line context
yields the fixed literal. -/
theorem c10_blank_question_witness :
    ("  ".data.all pyIsSpace = true) ∧
    call_local_qa false (fun _ _ => Except.ok (PyResp.str "ignored")) "  " "Line one\nLine two" =
      PyResp.dict (some (PyVal.vStr "No clear answer found in stored data.")) Option.none :=
  ⟨by decide, c10_blank_question (fun _ _ => Except.ok (PyResp.str "ignored"))
      "  " "Line one\nLine two" (by decide)⟩

/-- Claim C1 (amended): when the model is loaded and the call fails with a
non-empty message `e`, `call_local_qa` returns the payload `{"error": e}` —
the error text under the `error` key, not an answer payload — without
falling through to the heuristic path, and the answering operation then
raises a hard failure `HTTPException(500, "QA failed: " + e)`. -/
theorem c1_model_error_behavior (mc : String → String → Except String PyResp)
    (question context e : String)
    (he : pyValTruthy (PyVal.vStr e) = true)
    (h : mc question (qaTruncate context) = Except.error e) :
    call_local_qa true mc question context = PyResp.dict Option.none (some (PyVal.vStr e)) ∧
    askNormalize true mc question context = AskOutcome.httpError 500 ("QA failed: " ++ e) := by
  have h1 : call_local_qa true mc question context =
      PyResp.dict Option.none (some (PyVal.vStr e)) := by
    show (match mc question (qaTruncate context) with
          | .ok res => res
          | .error e => PyResp.dict Option.none (some (PyVal.vStr e))) =
      PyResp.dict Option.none (some (PyVal.vStr e))
    rw [h]
  refine ⟨h1, ?_⟩
  unfold askNormalize
  rw [h1]
  show (if pyValTruthy (dictGet Option.none) = true
        then AskOutcome.ok (pyStrOfVal (dictGet Option.none))
        else if pyValTruthy (dictGet (some (PyVal.vStr e))) = true
          then AskOutcome.httpError 500
            ("QA failed: " ++ pyStrOfVal (dictGet (some (PyVal.vStr e))))
          else AskOutcome.ok (pyStrResp (PyResp.dict Option.none (some (PyVal.vStr e))))) =
    AskOutcome.httpError 500 ("QA failed: " ++ e)
  rw [show pyValTruthy (dictGet Option.none) = false from rfl]
  rw [show dictGet (some (PyVal.vStr e)) = PyVal.vStr e from rfl]
  rw [he]
  simp only [Bool.false_eq_true, reduceIte]
  rfl

/-- Witness for the amended C1 at a concrete failing model call. -/
theorem c1_model_error_behavior_witness :
    pyValTruthy (PyVal.vStr "boom") = true ∧
    call_local_qa true (fun _ _ => Except.error "boom") "q" "resume context" =
      PyResp.dict Option.none (some (PyVal.vStr "boom")) ∧
    askNormalize true (fun _ _ => Except.error "boom") "q" "resume context" =
      AskOutcome.httpError 500 ("QA failed: " ++ "boom") :=
  ⟨by decide,
    (c1_model_error_behavior (fun _ _ => Except.error "boom") "q" "resume context" "boom"
      (by decide) rfl).1,
    (c1_model_error_behavior (fun _ _ => Except.error "boom") "q" "resume context" "boom"
      (by decide) rfl).2⟩

/-- Counterexample to C1 as stated: at a loaded model whose call fails with
"model exploded", the returned payload carries the error text under the
`error` key — not as `{"answer": <error message>}` — and the answering
operation raises a hard failure (HTTP 500), contradicting the claim. -/
theorem c1_claim_counterexample :
    call_local_qa true (fun _ _ => Except.error "model exploded") "when" "ctx" =
      PyResp.dict Option.none (some (PyVal.vStr "model exploded")) ∧
    call_local_qa true (fun _ _ => Except.error "model exploded") "when" "ctx" ≠
      PyResp.dict (some (PyVal.vStr "model exploded")) Option.none ∧
    askNormalize true (fun _ _ => Except.error "model exploded") "when" "ctx" =
      AskOutcome.httpError 500 "QA failed: model exploded" := by
  have h1 : call_local_qa true (fun _ _ => Except.error "model exploded") "when" "ctx" =
      PyResp.dict Option.none (some (PyVal.vStr "model exploded")) := rfl
  refine ⟨h1, ?_, rfl⟩
  rw [h1]
  simp

/-! ## Claims C2..C7: the field extractor -/

theorem pyOrEmptyStr_isStr (o : Option PyVal) : ∃ s, pyOrEmptyStr o = PyVal.vStr s := by
  match o with
  | Option.none => exact ⟨"", rfl⟩
  | some PyVal.vNone => exact ⟨"", rfl⟩
  | some (PyVal.vStr s) =>
    by_cases hs : s.data.isEmpty = true
    · refine ⟨"", ?_⟩
      show (if s.data.isEmpty = true then PyVal.vStr "" else PyVal.vStr s) = PyVal.vStr ""
      rw [if_pos hs]
    · refine ⟨s, ?_⟩
      show (if s.data.isEmpty = true then PyVal.vStr "" else PyVal.vStr s) = PyVal.vStr s
      rw [if_neg hs]

theorem commonSkillsNodup : COMMON_SKILLS.Nodup := by decide

/-- Counterexample to C2 as stated: an entity dict tagged `ORG` but lacking
the `"word"` key makes `build_structured_fields` raise `KeyError("word")`
(the subscript `e["word"]` at parser_utils.py line 179), so the extractor is
not total over entity dicts with missing fields. -/
theorem c2_claim_counterexample :
    build_structured_fields ""
      [{ word := Option.none, entity_group := some (PyVal.vStr "ORG") }] =
      Except.error (PyExc.keyError "word") := rfl

/-- Claim C2 (amended): `build_structured_fields` never fails for every text
and every entity sequence in which each `ORG`-tagged entity has its `"word"`
key present (even with a `None` value); in particular for every text with an
empty entity sequence.  Absence of signal yields empty/default fields rather
than an error. -/
theorem c2_totality (text : String) (ents : List Entity)
    (h : ∀ e ∈ ents, isGroup "ORG" e = true → e.word.isSome = true) :
    ∃ r, build_structured_fields text ents = Except.ok r := by
  obtain ⟨ws, hw⟩ := orgWords_ok_of ents h
  cases he : (eduLinesBlock text).isEmpty with
  | true =>
    apply Exists.intro
    simp only [build_structured_fields, hw, he, reduceIte]
    rfl
  | false =>
    apply Exists.intro
    simp only [build_structured_fields, hw, he, Bool.false_eq_true, reduceIte]
    rfl

/-- Witness for the amended C2: a concrete text with no entities builds a
record successfully. -/
theorem c2_totality_witness :
    ∃ r, build_structured_fields "Bachelor of Science at MIT" [] = Except.ok r :=
  c2_totality "Bachelor of Science at MIT" [] (by simp)

/-- Claim C3: whenever the extractor returns a record, every schema field is
present with a type-correct value (the Lean record type carries all eight
fields; the name is always a string, never `None`), and on empty text and an
empty entity sequence every field is its empty/default value. -/
theorem c3_schema_defaults (text : String) (ents : List Entity) (r : Record)
    (h : build_structured_fields text ents = .ok r) :
    (∃ s, r.name = PyVal.vStr s) ∧
    build_structured_fields "" [] =
      .ok { name := PyVal.vStr "", education := Option.none, experience := Option.none,
            skills := [], hobbies := [], certifications := [], projects := [],
            introduction := "" } := by
  constructor
  · obtain ⟨ws, hw⟩ := build_ok_orgWords text ents r h
    have hr := build_ok_fields text ents ws r hw h
    rw [hr]
    exact pyOrEmptyStr_isStr _
  · rfl

/-- Witness for C3 at the empty input. -/
theorem c3_schema_defaults_witness :
    build_structured_fields "" [] =
      .ok { name := PyVal.vStr "", education := Option.none, experience := Option.none,
            skills := [], hobbies := [], certifications := [], projects := [],
            introduction := "" } ∧
    ∃ s, (Record.mk (PyVal.vStr "") Option.none Option.none [] [] [] [] "").name =
      PyVal.vStr s :=
  ⟨rfl,
    (c3_schema_defaults "" []
      (Record.mk (PyVal.vStr "") Option.none Option.none [] [] [] [] "") rfl).1⟩

/-- Claim C4: a skill token of the fixed list is in the output skills iff it
occurs `\b`-delimited in the lower-cased text, and the output is sorted
ascending with no duplicates (set semantics). -/
theorem c4_skills (text : String) (ents : List Entity) (r : Record)
    (h : build_structured_fields text ents = .ok r) :
    (∀ sk, sk ∈ r.skills ↔ (sk ∈ COMMON_SKILLS ∧ reWordSearch sk (pyLower text) = true)) ∧
    r.skills.Pairwise SLe ∧ r.skills.Nodup := by
  obtain ⟨ws, hw⟩ := build_ok_orgWords text ents r h
  have hr := build_ok_fields text ents ws r hw h
  have hsk : r.skills = skillsBlock (pyLower text) := by rw [hr]
  rw [hsk]
  unfold skillsBlock
  refine ⟨?_, pySort_sorted _, nodup_pySort (List.Nodup.filter _ commonSkillsNodup)⟩
  intro sk
  rw [mem_pySort, List.mem_filter]

/-- Witness for C4: the text "Python and python" yields skills `["python"]`,
containing "python" exactly once (dedup and case-insensitivity). -/
theorem c4_skills_witness :
    build_structured_fields "Python and python" [] =
      .ok (Record.mk (PyVal.vStr "") Option.none Option.none ["python"] [] [] [] "") ∧
    ("python" ∈ (Record.mk (PyVal.vStr "") Option.none Option.none ["python"] [] [] [] "").skills ↔
      ("python" ∈ COMMON_SKILLS ∧ reWordSearch "python" (pyLower "Python and python") = true)) ∧
    (Record.mk (PyVal.vStr "") Option.none Option.none ["python"] [] [] [] "").skills.Nodup := by
  have h : build_structured_fields "Python and python" [] =
      .ok (Record.mk (PyVal.vStr "") Option.none Option.none ["python"] [] [] [] "") := rfl
  exact ⟨h, (c4_skills "Python and python" [] _ h).1 "python", (c4_skills "Python and python" [] _ h).2.2⟩

/-- Claim C5: education entries are the source-ordered stripped qualifying
lines (degree keyword as case-insensitive substring, or a `\b`-delimited
match of university/college/institute/school, with stripped length > 5);
when no line qualifies they fall back to the first at most 3 ORG entity
words in sequence order; when both are empty, education is the empty
object. -/
theorem c5_education (text : String) (ents : List Entity) (r : Record) (ws : List PyVal)
    (h : build_structured_fields text ents = .ok r)
    (hw : orgWords ents = .ok ws) :
    eduLinesBlock text = ((pySplitlines text).filter
        (fun line => eduLineCond line && decide (5 < (pyStrip line).data.length))).map pyStrip ∧
    ws = (ents.filter (fun e => isGroup "ORG" e)).filterMap Entity.word ∧
    (eduLinesBlock text ≠ [] → r.education = some ((eduLinesBlock text).map PyVal.vStr)) ∧
    (eduLinesBlock text = [] → ws ≠ [] → r.education = some (ws.take 3)) ∧
    (eduLinesBlock text = [] → ws = [] → r.education = Option.none) := by
  have hr := build_ok_fields text ents ws r hw h
  have hed : r.education = (if (eduLinesBlock text).isEmpty then
        (if ws.isEmpty then Option.none else some (ws.take 3))
      else some ((eduLinesBlock text).map PyVal.vStr)) := by rw [hr]
  refine ⟨eduLinesBlock_eq_filter text, orgWords_spec ents ws hw, ?_, ?_, ?_⟩
  · intro hne
    have he : ¬ (eduLinesBlock text).isEmpty = true := by simp [hne]
    rw [hed, if_neg he]
  · intro h0 hwne
    have he : (eduLinesBlock text).isEmpty = true := by simp [h0]
    have hwn : ¬ ws.isEmpty = true := by simp [hwne]
    rw [hed, if_pos he, if_neg hwn]
  · intro h0 hw0
    have he : (eduLinesBlock text).isEmpty = true := by simp [h0]
    have hwe : ws.isEmpty = true := by simp [hw0]
    rw [hed, if_pos he, if_pos hwe]

/-- Witness for C5: empty text (no qualifying lines) with ORG spans
Acme, Beta, Gamma, Delta yields `education.entries` = first 3, order
preserved. -/
theorem c5_education_witness :
    build_structured_fields ""
      [Entity.mk (some (PyVal.vStr "Acme")) (some (PyVal.vStr "ORG")),
       Entity.mk (some (PyVal.vStr "Beta")) (some (PyVal.vStr "ORG")),
       Entity.mk (some (PyVal.vStr "Gamma")) (some (PyVal.vStr "ORG")),
       Entity.mk (some (PyVal.vStr "Delta")) (some (PyVal.vStr "ORG"))] =
      .ok (Record.mk (PyVal.vStr "")
        (some [PyVal.vStr "Acme", PyVal.vStr "Beta", PyVal.vStr "Gamma"])
        (some ["Worked at Acme", "Worked at Beta", "Worked at Gamma", "Worked at Delta"])
        [] [] [] [] "") ∧
    (Record.mk (PyVal.vStr "")
        (some [PyVal.vStr "Acme", PyVal.vStr "Beta", PyVal.vStr "Gamma"])
        (some ["Worked at Acme", "Worked at Beta", "Worked at Gamma", "Worked at Delta"])
        [] [] [] [] "").education =
      some ([PyVal.vStr "Acme", PyVal.vStr "Beta", PyVal.vStr "Gamma",
             PyVal.vStr "Delta"].take 3) := by
  have h : build_structured_fields ""
      [Entity.mk (some (PyVal.vStr "Acme")) (some (PyVal.vStr "ORG")),
       Entity.mk (some (PyVal.vStr "Beta")) (some (PyVal.vStr "ORG")),
       Entity.mk (some (PyVal.vStr "Gamma")) (some (PyVal.vStr "ORG")),
       Entity.mk (some (PyVal.vStr "Delta")) (some (PyVal.vStr "ORG"))] =
      .ok (Record.mk (PyVal.vStr "")
        (some [PyVal.vStr "Acme", PyVal.vStr "Beta", PyVal.vStr "Gamma"])
        (some ["Worked at Acme", "Worked at Beta", "Worked at Gamma", "Worked at Delta"])
        [] [] [] [] "") := rfl
  refine ⟨h, ?_⟩
  exact (c5_education "" _ _ _ h rfl).2.2.2.1 rfl (by simp)

/-- Claim C6: experience.summary_lines is the source-ordered stripped lines
containing a (19xx|20xx) year pattern and a role keyword, followed by one
synthesized "Worked at {org}" line for each of the first at most 5 ORG
entity words, appended unconditionally; when the combined list is empty,
experience is the empty object. -/
theorem c6_experience (text : String) (ents : List Entity) (r : Record) (ws : List PyVal)
    (h : build_structured_fields text ents = .ok r)
    (hw : orgWords ents = .ok ws) :
    expLinesBlock text = ((pySplitlines text).map pyStrip).filter expLineCond ∧
    ws = (ents.filter (fun e => isGroup "ORG" e)).filterMap Entity.word ∧
    (expLinesBlock text ++ (ws.take 5).map (fun o => "Worked at " ++ pyStrOfVal o) ≠ [] →
      r.experience =
        some (expLinesBlock text ++ (ws.take 5).map (fun o => "Worked at " ++ pyStrOfVal o))) ∧
    (expLinesBlock text ++ (ws.take 5).map (fun o => "Worked at " ++ pyStrOfVal o) = [] →
      r.experience = Option.none) := by
  have hr := build_ok_fields text ents ws r hw h
  have hex : r.experience = (if (expLinesBlock text ++
        (ws.take 5).map (fun o => "Worked at " ++ pyStrOfVal o)).isEmpty
      then Option.none
      else some (expLinesBlock text ++
        (ws.take 5).map (fun o => "Worked at " ++ pyStrOfVal o))) := by rw [hr]
  refine ⟨expLinesBlock_eq_filter text, orgWords_spec ents ws hw, ?_, ?_⟩
  · intro hne
    have he : ¬ (expLinesBlock text ++
        (ws.take 5).map (fun o => "Worked at " ++ pyStrOfVal o)).isEmpty = true := by
      simp only [List.isEmpty_eq_true]
      exact hne
    rw [hex, if_neg he]
  · intro h0
    have he : (expLinesBlock text ++
        (ws.take 5).map (fun o => "Worked at " ++ pyStrOfVal o)).isEmpty = true := by
      simp only [List.isEmpty_eq_true]
      exact h0
    rw [hex, if_pos he]

/-- Witness for C6: a text with one qualifying line and one ORG entity
yields the line followed by the synthesized "Worked at" line. -/
theorem c6_experience_witness :
    build_structured_fields "Software Engineer 2019\nHello"
      [Entity.mk (some (PyVal.vStr "Acme")) (some (PyVal.vStr "ORG"))] =
      .ok (Record.mk (PyVal.vStr "") (some [PyVal.vStr "Acme"])
        (some ["Software Engineer 2019", "Worked at Acme"]) [] [] [] [] "") ∧
    (Record.mk (PyVal.vStr "") (some [PyVal.vStr "Acme"])
        (some ["Software Engineer 2019", "Worked at Acme"]) [] [] [] [] "").experience =
      some ["Software Engineer 2019", "Worked at Acme"] := by
  have h : build_structured_fields "Software Engineer 2019\nHello"
      [Entity.mk (some (PyVal.vStr "Acme")) (some (PyVal.vStr "ORG"))] =
      .ok (Record.mk (PyVal.vStr "") (some [PyVal.vStr "Acme"])
        (some ["Software Engineer 2019", "Worked at Acme"]) [] [] [] [] "") := rfl
  refine ⟨h, ?_⟩
  exact (c6_experience "Software Engineer 2019\nHello" _ _ _ h rfl).2.2.1 (by decide)

/-- Claim C7: in a single line scan, a stripped line is appended to
certifications iff its lower-casing contains "certif", "course" or
"certificate", and to projects iff it contains "project" or "github.com";
a line satisfying both appears in both lists; order preserved and no
deduplication applied (the lists are exactly the filtered, stripped lines
in source order). -/
theorem c7_certifications_projects (text : String) (ents : List Entity) (r : Record)
    (h : build_structured_fields text ents = .ok r) :
    r.certifications = ((pySplitlines text).filter certCond).map pyStrip ∧
    r.projects = ((pySplitlines text).filter projCond).map pyStrip := by
  obtain ⟨ws, hw⟩ := build_ok_orgWords text ents r h
  have hr := build_ok_fields text ents ws r hw h
  constructor
  · rw [hr, certsProjects_eq_filter]
  · rw [hr, certsProjects_eq_filter]

/-- Witness for C7: the line "Completed a certificate project on github.com"
is appended to both certifications and projects. -/
theorem c7_certifications_projects_witness :
    build_structured_fields "Completed a certificate project on github.com" [] =
      .ok (Record.mk (PyVal.vStr "") Option.none Option.none [] []
        ["Completed a certificate project on github.com"]
        ["Completed a certificate project on github.com"]
        "Completed a certificate project on github.com") ∧
    (Record.mk (PyVal.vStr "") Option.none Option.none [] []
        ["Completed a certificate project on github.com"]
        ["Completed a certificate project on github.com"]
        "Completed a certificate project on github.com").certifications =
      ((pySplitlines "Completed a certificate project on github.com").filter certCond).map
        pyStrip ∧
    (Record.mk (PyVal.vStr "") Option.none Option.none [] []
        ["Completed a certificate project on github.com"]
        ["Completed a certificate project on github.com"]
        "Completed a certificate project on github.com").projects =
      ((pySplitlines "Completed a certificate project on github.com").filter projCond).map
        pyStrip := by
  have h : build_structured_fields "Completed a certificate project on github.com" [] =
      .ok (Record.mk (PyVal.vStr "") Option.none Option.none [] []
        ["Completed a certificate project on github.com"]
        ["Completed a certificate project on github.com"]
        "Completed a certificate project on github.com") := rfl
  exact ⟨h, (c7_certifications_projects _ [] _ h).1, (c7_certifications_projects _ [] _ h).2⟩
